import Mathlib

/-!
Verification development for the `luxifer/ical` Go repository.

The definitions below are a shallow embedding of the repository's source:
`parse.go` (parser, validators, date resolver), the lexer file (scanner state
machine), and the formatter (`Format`, `formatEvent`, ... as given in the
repository).  Go strings are modelled as `List Char` (the inputs of interest
are ASCII, where Go's byte positions and rune positions agree), Go `int` as
`Int`, Go `time.Time` as an absolute instant in seconds paired with its
location, and fallible Go calls as `Except String`.  Character classification
(`unicode.IsLetter` etc.) is modelled exactly on the ASCII range consulted by
every claim; code points above 0x7F are approximated by their dominant class.
-/

namespace Ical

/-- A Go `*time.Location` in a fixed-offset model: `utc` is `time.UTC`,
`nilLoc` is a nil `*Location` (which the `time` package treats as UTC),
`localLoc` is the process-global `time.Local`, and `fixed name off` is a
zone loaded from the timezone database with a fixed offset of `off` seconds
east of UTC. -/
inductive GoLoc where
  | utc
  | nilLoc
  | localLoc
  | fixed (name : String) (offset : Int)
deriving DecidableEq, Repr

/-- Modelled from the spec: the timezone database is an external collaborator
("it is consulted, not implemented", spec section 1).  It is modelled as a
fixed table mapping a zone name to its offset in seconds east of UTC; the two
entries are the zones exercised by the repository's tests and by the claims
(`America/New_York` at its standard offset). -/
def goTzdb (name : String) : Option Int :=
  if name = "America/New_York" then some (-18000)
  else if name = "Etc/GMT-1" then some 3600
  else none

/-- Go `time.LoadLocation`: the names "UTC" and "" give UTC, "Local" gives the
system zone, anything else is looked up in the timezone database; an unknown
name is an error (`none`). -/
def goLoadLocation (name : String) : Option GoLoc :=
  if name = "UTC" || name = "" then some GoLoc.utc
  else if name = "Local" then some GoLoc.localLoc
  else (goTzdb name).map (GoLoc.fixed name)

/-- Offset in seconds east of UTC of a location.  `localOff` is the offset of
the process-global `time.Local` zone (modelled as a fixed offset and threaded
explicitly through every function that consults it). -/
def GoLoc.off (localOff : Int) : GoLoc → Int
  | GoLoc.utc => 0
  | GoLoc.nilLoc => 0
  | GoLoc.localLoc => localOff
  | GoLoc.fixed _ o => o

/-- A Go `time.Time`: the absolute instant as seconds since the Unix epoch
together with the location it carries for display. -/
structure GoTime where
  sec : Int
  loc : GoLoc
deriving DecidableEq, Repr

/-- Go `time.Duration` arithmetic `t.Add(d)` for a whole number of seconds:
it shifts the absolute instant and keeps the location. -/
def GoTime.add (t : GoTime) (d : Int) : GoTime :=
  { t with sec := t.sec + d }

/-- Gregorian leap-year rule (Go `isLeap`). -/
def isLeapYear (y : Int) : Bool :=
  y % 4 = 0 && (y % 100 ≠ 0 || y % 400 = 0)

/-- Number of days in a month (Go `daysIn`). -/
def daysInMonth (m : Nat) (y : Int) : Nat :=
  if m = 2 then (if isLeapYear y then 29 else 28)
  else if m = 4 || m = 6 || m = 9 || m = 11 then 30
  else 31

/-- Days from the Unix epoch (1970-01-01) to the civil date `y-m-d`
(proleptic Gregorian; the standard days-from-civil algorithm). -/
def daysFromCivil (y : Int) (m d : Nat) : Int :=
  let yAdj : Int := if m ≤ 2 then y - 1 else y
  let era : Int := Int.ediv yAdj 400
  let yoe : Int := yAdj - era * 400
  let mShift : Int := if m > 2 then (m : Int) - 3 else (m : Int) + 9
  let doy : Int := Int.ediv (153 * mShift + 2) 5 + (d : Int) - 1
  let doe : Int := yoe * 365 + Int.ediv yoe 4 - Int.ediv yoe 100 + doy
  era * 146097 + doe - 719468

/-- Civil date `(y, m, d)` of a day count from the Unix epoch (inverse of
`daysFromCivil`). -/
def civilFromDays (z0 : Int) : Int × Nat × Nat :=
  let z : Int := z0 + 719468
  let era : Int := Int.ediv z 146097
  let doe : Int := z - era * 146097
  let yoe : Int :=
    Int.ediv (doe - Int.ediv doe 1460 + Int.ediv doe 36524 - Int.ediv doe 146096) 365
  let y : Int := yoe + era * 400
  let doy : Int := doe - (365 * yoe + Int.ediv yoe 4 - Int.ediv yoe 100)
  let mp : Int := Int.ediv (5 * doy + 2) 153
  let d : Int := doy - Int.ediv (153 * mp + 2) 5 + 1
  let m : Int := if mp < 10 then mp + 3 else mp - 9
  (if m ≤ 2 then y + 1 else y, m.toNat, d.toNat)

/-- Seconds since the Unix epoch of a civil wall-clock reading taken at UTC. -/
def wallSec (y : Int) (mo d h mi s : Nat) : Int :=
  daysFromCivil y mo d * 86400 + ((h * 3600 + mi * 60 + s : Nat) : Int)

/-- The Go zero `time.Time{}`: January 1, year 1, 00:00:00 UTC, carrying a nil
location. -/
def goZeroTime : GoTime :=
  { sec := wallSec 1 1 1 0 0 0, loc := GoLoc.nilLoc }

/-- Go `Time.IsZero`. -/
def GoTime.isZero (t : GoTime) : Bool :=
  t.sec = goZeroTime.sec

/-- The discarded-error idiom `t, _ := time.Parse(...)`: a failed parse leaves
the zero `time.Time`. -/
def orZero : Except String GoTime → GoTime
  | Except.ok t => t
  | Except.error _ => goZeroTime

/-- The three reference layouts of `parse.go`:
`dateLayout = "20060102"`, `dateTimeLayoutUTC = "20060102T150405Z"`,
`dateTimeLayoutLocalized = "20060102T150405"`. -/
inductive GoLayout where
  | dateLayout
  | dateTimeLayoutUTC
  | dateTimeLayoutLocalized
deriving DecidableEq, Repr

/-- Decimal digit value of a character, if it is one. -/
def digitVal (c : Char) : Option Nat :=
  if '0' ≤ c && c ≤ '9' then some (c.toNat - '0'.toNat) else none

/-- Consume exactly `n` decimal digits from the front of `cs`, returning their
value and the rest (Go's fixed-width `getnum`). -/
def takeDigits : Nat → List Char → Option (Nat × List Char)
  | 0, cs => some (0, cs)
  | _ + 1, [] => none
  | n + 1, c :: cs =>
    match digitVal c with
    | none => none
    | some v =>
      match takeDigits n cs with
      | none => none
      | some (rest, cs') => some (v * 10 ^ n + rest, cs')

/-- Consume one literal character. -/
def takeLit (c : Char) : List Char → Option (List Char)
  | [] => none
  | c' :: cs => if c' = c then some cs else none

/-- Parse the wall-clock fields of a value against one of the three layouts,
mirroring Go `time.Parse`: fixed-width digit fields, literal `T`/`Z`, an
error on any leftover text, and the range checks the `time` package performs
(month, day-of-month, hour, minute, second, in that order). -/
def goParseWall (layout : GoLayout) (cs : List Char) :
    Except String (Int × Nat × Nat × Nat × Nat × Nat) := do
  let some (y, cs) := takeDigits 4 cs | throw "cannot parse year"
  let some (mo, cs) := takeDigits 2 cs | throw "cannot parse month"
  let some (d, cs) := takeDigits 2 cs | throw "cannot parse day"
  let (h, mi, s, cs) ←
    match layout with
    | GoLayout.dateLayout => pure (0, 0, 0, cs)
    | _ => do
      let some cs := takeLit 'T' cs | throw "cannot parse literal T"
      let some (h, cs) := takeDigits 2 cs | throw "cannot parse hour"
      let some (mi, cs) := takeDigits 2 cs | throw "cannot parse minute"
      let some (s, cs) := takeDigits 2 cs | throw "cannot parse second"
      match layout with
      | GoLayout.dateTimeLayoutUTC => do
        let some cs := takeLit 'Z' cs | throw "cannot parse literal Z"
        pure (h, mi, s, cs)
      | _ => pure (h, mi, s, cs)
  if cs ≠ [] then throw "extra text" else
  if mo < 1 || 12 < mo then throw "month out of range" else
  if d < 1 || daysInMonth mo y < d then throw "day out of range" else
  if 24 ≤ h then throw "hour out of range" else
  if 60 ≤ mi then throw "minute out of range" else
  if 60 ≤ s then throw "second out of range" else
  pure ((y : Int), mo, d, h, mi, s)

/-- Go `time.Parse(layout, value)`: no zone information appears in any of the
three layouts, so the result is taken at UTC. -/
def timeParse (layout : GoLayout) (value : String) : Except String GoTime := do
  let (y, mo, d, h, mi, s) ← goParseWall layout value.data
  pure { sec := wallSec y mo d h mi s, loc := GoLoc.utc }

/-- Go `time.ParseInLocation(layout, value, loc)`: the wall-clock reading is
interpreted in `loc`. -/
def timeParseInLocation (localOff : Int) (layout : GoLayout) (value : String)
    (loc : GoLoc) : Except String GoTime := do
  let (y, mo, d, h, mi, s) ← goParseWall layout value.data
  pure { sec := wallSec y mo d h mi s - loc.off localOff, loc := loc }

/-- Left-pad the decimal rendering of `n` with zeroes to width `w`. -/
def padNum (w : Nat) (n : Nat) : String :=
  let s := toString n
  String.mk (List.replicate (w - s.length) '0') ++ s

/-- Go `t.Format(dateTimeLayoutUTC)`: the wall clock of `t` read in `t`'s own
location, rendered through the layout (whose trailing `Z` is a literal). -/
def GoTime.formatDateTimeUTC (localOff : Int) (t : GoTime) : String :=
  let shifted := t.sec + t.loc.off localOff
  let days := Int.ediv shifted 86400
  let rem := (shifted - days * 86400).toNat
  let (y, mo, d) := civilFromDays days
  padNum 4 y.toNat ++ padNum 2 mo ++ padNum 2 d ++ "T" ++
    padNum 2 (rem / 3600) ++ padNum 2 (rem / 60 % 60) ++ padNum 2 (rem % 60) ++ "Z"

/-- A Param represent a list of param for a property (`parse.go`). -/
structure Param where
  Values : List String
deriving DecidableEq, Repr

/-- A Property represent an unparsed property in an iCalendar component
(`parse.go`).  The Go field `Params` is a `map[string]*Param` with unique
keys; it is modelled as an association list in insertion order (the parser
inserts with replacement, below). -/
structure Property where
  Name : String
  Params : List (String × Param)
  Value : String
deriving DecidableEq, Repr

/-- An Alarm represent a VALARM component in an iCalendar (`parse.go`). -/
structure Alarm where
  Properties : List Property
  Action : String
  Trigger : String
deriving DecidableEq, Repr

/-- An Event represent a VEVENT component in an iCalendar (`parse.go`). -/
structure Event where
  Properties : List Property
  Alarms : List Alarm
  UID : String
  Timestamp : GoTime
  StartDate : GoTime
  EndDate : GoTime
  Summary : String
  Description : String
deriving DecidableEq, Repr

/-- A Calendar represents the whole iCalendar (`parse.go`). -/
structure Calendar where
  Properties : List Property
  Events : List Event
  Prodid : String
  Version : String
  Calscale : String
  Method : String
deriving DecidableEq, Repr

/-- NewCalendar creates an empty Calendar (`parse.go`; this revision does not
pre-set Calscale, unlike the `ical.go` revision also present in the sources). -/
def NewCalendar : Calendar :=
  { Properties := [], Events := [], Prodid := "", Version := "", Calscale := "",
    Method := "" }

/-- NewProperty creates an empty Property (`parse.go`). -/
def NewProperty : Property :=
  { Name := "", Params := [], Value := "" }

/-- NewEvent creates an empty Event (`parse.go`); the zero `time.Time` fields
of the fresh Go struct are the zero time. -/
def NewEvent : Event :=
  { Properties := [], Alarms := [], UID := "", Timestamp := goZeroTime,
    StartDate := goZeroTime, EndDate := goZeroTime, Summary := "",
    Description := "" }

/-- NewAlarm creates an empty Alarm (`parse.go`). -/
def NewAlarm : Alarm :=
  { Properties := [], Action := "", Trigger := "" }

/-- Map lookup `prop.Params[name]`. -/
def paramsLookup (params : List (String × Param)) (name : String) : Option Param :=
  (params.find? (fun kv => kv.1 = name)).map (fun kv => kv.2)

/-- Map update `prop.Params[name] = param` (replace an existing key in place,
otherwise append). -/
def paramsInsert (params : List (String × Param)) (name : String) (p : Param) :
    List (String × Param) :=
  if (params.find? (fun kv => kv.1 = name)).isSome then
    params.map (fun kv => if kv.1 = name then (name, p) else kv)
  else
    params ++ [(name, p)]

/-- Recursion of the candidate-first pattern test. -/
def listStartsWithAux : List Char → List Char → Bool
  | [], _ => true
  | _ :: _, [] => false
  | p :: ps, c :: cs => c = p && listStartsWithAux ps cs

/-- Does `l` begin with `pre` (Go `strings.HasPrefix` on the modelled
input)? -/
def listStartsWith (l pre : List Char) : Bool :=
  listStartsWithAux pre l

/-- Go `strings.HasSuffix`, computed on the character lists. -/
def strHasSuffix (s suffix : String) : Bool :=
  listStartsWith s.data.reverse suffix.data.reverse

/-- hasProperty checks if a given component has a certain property
(`parse.go`). -/
def hasProperty (name : String) (properties : List Property) : Bool :=
  properties.any (fun prop => name = prop.Name)

/-- parseDate transform an ical date into a time.Time (`parse.go` lines
506-530).  `localOff` models the offset of the process-global `time.Local`.
An empty `Values` slice would make the Go code panic on `Values[0]`; the
panic is modelled as an error result carrying a "panic:" message. -/
def parseDate (localOff : Int) (prop : Property) : Except String GoTime :=
  match paramsLookup prop.Params "TZID" with
  | some tz =>
    match tz.Values with
    | [] => Except.error "panic: index out of range"
    | tzName :: _ =>
      let loc := (goLoadLocation tzName).getD GoLoc.nilLoc
      timeParseInLocation localOff GoLayout.dateTimeLayoutLocalized prop.Value loc
  | none =>
    if strHasSuffix prop.Value "Z" then
      timeParse GoLayout.dateTimeLayoutUTC prop.Value
    else if prop.Value.length = 15 then
      timeParseInLocation localOff GoLayout.dateTimeLayoutLocalized prop.Value
        GoLoc.localLoc
    else
      let layout :=
        match paramsLookup prop.Params "VALUE" with
        | some val =>
          match val.Values with
          | "DATE" :: _ => GoLayout.dateLayout
          | _ => GoLayout.dateTimeLayoutLocalized
        | none => GoLayout.dateTimeLayoutLocalized
      timeParse layout prop.Value

/-- One iteration of the property loop of validateCalendar (`parse.go` lines
371-389): the accumulator is the calendar under mutation and requiredCount. -/
def calendarStep (acc : Calendar × Nat) (prop : Property) : Calendar × Nat :=
  let (c, requiredCount) := acc
  if prop.Name = "PRODID" then ({ c with Prodid := prop.Value }, requiredCount + 1)
  else if prop.Name = "VERSION" then ({ c with Version := prop.Value }, requiredCount + 1)
  else if prop.Name = "CALSCALE" then ({ c with Calscale := prop.Value }, requiredCount)
  else if prop.Name = "METHOD" then ({ c with Method := prop.Value }, requiredCount)
  else (c, requiredCount)

/-- validateCalendar validate calendar props (`parse.go` lines 369-396). -/
def validateCalendar (c : Calendar) : Except String Calendar :=
  let r := c.Properties.foldl calendarStep (c, 0)
  if r.2 ≠ 2 then
    Except.error "missing either required property \"prodid / version /\""
  else
    Except.ok r.1

/-- Increment `uniqueCount[key]` (a Go `map[string]int`, modelled as an
association list in first-insertion order). -/
def bumpCount (m : List (String × Nat)) (key : String) : List (String × Nat) :=
  if (m.find? (fun kv => kv.1 = key)).isSome then
    m.map (fun kv => if kv.1 = key then (key, kv.2 + 1) else kv)
  else
    m ++ [(key, 1)]

/-- The first uniqueCount entry exceeding 1, if any.  Go iterates the map in
an unspecified order; only whether some entry exceeds 1 is observable apart
from the error message, and the insertion order is used as a deterministic
proxy. -/
def firstDup (m : List (String × Nat)) : Option String :=
  (m.find? (fun kv => 1 < kv.2)).map (fun kv => kv.1)

/-- One iteration of the property loop of validateEvent (`parse.go` lines
402-445): the accumulator is the event under mutation, requiredCount and
uniqueCount; the DTEND/DURATION branches can abort with an error. -/
def eventStep (localOff : Int) (acc : Event × Nat × List (String × Nat))
    (prop : Property) : Except String (Event × Nat × List (String × Nat)) :=
  let (v, requiredCount, uniqueCount) := acc
  if prop.Name = "UID" then
    Except.ok ({ v with UID := prop.Value }, requiredCount + 1,
      bumpCount uniqueCount "UID")
  else if prop.Name = "DTSTAMP" then
    Except.ok ({ v with
        Timestamp := orZero (timeParse GoLayout.dateTimeLayoutUTC prop.Value) },
      requiredCount + 1, bumpCount uniqueCount "DTSTAMP")
  else if prop.Name = "DTSTART" then
    Except.ok ({ v with StartDate := orZero (parseDate localOff prop) },
      requiredCount + 1, bumpCount uniqueCount "DTSTART")
  else if prop.Name = "DTEND" then
    if hasProperty "DURATION" v.Properties then
      Except.error "Either \"dtend\" or \"duration\" MAY appear"
    else
      Except.ok ({ v with EndDate := orZero (parseDate localOff prop) },
        requiredCount, bumpCount uniqueCount "DTEND")
  else if prop.Name = "DURATION" then
    if hasProperty "DTEND" v.Properties then
      Except.error "Either \"dtend\" or \"duration\" MAY appear"
    else
      Except.ok (v, requiredCount, bumpCount uniqueCount "DURATION")
  else if prop.Name = "SUMMARY" then
    Except.ok ({ v with Summary := prop.Value }, requiredCount,
      bumpCount uniqueCount "SUMMARY")
  else if prop.Name = "DESCRIPTION" then
    Except.ok ({ v with Description := prop.Value }, requiredCount,
      bumpCount uniqueCount "DESCRIPTION")
  else
    Except.ok (v, requiredCount, uniqueCount)

/-- The property loop of validateEvent. -/
def eventLoop (localOff : Int) (acc : Event × Nat × List (String × Nat)) :
    List Property → Except String (Event × Nat × List (String × Nat))
  | [] => Except.ok acc
  | prop :: props =>
    match eventStep localOff acc prop with
    | Except.error e => Except.error e
    | Except.ok acc' => eventLoop localOff acc' props

/-- validateEvent validate event props (`parse.go` lines 399-462). -/
def validateEvent (localOff : Int) (v : Event) : Except String Event :=
  match eventLoop localOff (v, 0, []) v.Properties with
  | Except.error e => Except.error e
  | Except.ok acc =>
    if acc.2.1 ≠ 3 then
      Except.error "missing either required property \"dtstamp / uid / dtstart /\""
    else
      match firstDup acc.2.2 with
      | some key => Except.error (key ++ " property must not occur more than once")
      | none =>
        if ¬ hasProperty "DTEND" acc.1.Properties then
          Except.ok { acc.1 with EndDate := acc.1.StartDate.add (24 * 3600) }
        else
          Except.ok acc.1

/-- One iteration of the property loop of validateAlarm (`parse.go` lines
468-480). -/
def alarmStep (acc : Alarm × Nat × List (String × Nat)) (prop : Property) :
    Alarm × Nat × List (String × Nat) :=
  let (a, requiredCount, uniqueCount) := acc
  if prop.Name = "ACTION" then
    ({ a with Action := prop.Value }, requiredCount + 1, bumpCount uniqueCount "ACTION")
  else if prop.Name = "TRIGGER" then
    ({ a with Trigger := prop.Value }, requiredCount + 1, bumpCount uniqueCount "TRIGGER")
  else
    (a, requiredCount, uniqueCount)

/-- validateAlarm validate alarm props (`parse.go` lines 465-493). -/
def validateAlarm (a : Alarm) : Except String Alarm :=
  let r := a.Properties.foldl alarmStep (a, 0, [])
  if r.2.1 ≠ 2 then
    Except.error "missing either required property \"action / trigger /\""
  else
    match firstDup r.2.2 with
    | some key => Except.error (key ++ " property must not occur more than once")
    | none => Except.ok r.1

/-- itemType identifies the type of lex items (the lexer file).  The numeric
codes mirror the Go `iota` order; `itemBeginVAlarm` and `itemEndVAlarm` are
the alarm delimiter item types that `parse.go` branches on (the lexer
revision included under `src` declares and emits only the first four
delimiter kinds). -/
inductive ItemType where
  | itemError
  | itemEOF
  | itemLineEnd
  | itemName
  | itemParamName
  | itemParamValue
  | itemValue
  | itemColon
  | itemSemiColon
  | itemEqual
  | itemComma
  | itemKeyword
  | itemBeginVCalendar
  | itemEndVCalendar
  | itemBeginVEvent
  | itemEndVEvent
  | itemBeginVAlarm
  | itemEndVAlarm
deriving DecidableEq, Repr

/-- The Go `iota` value of an itemType (used by the parser's ordered
comparison `name.typ > itemKeyword`). -/
def ItemType.code : ItemType → Nat
  | itemError => 0
  | itemEOF => 1
  | itemLineEnd => 2
  | itemName => 3
  | itemParamName => 4
  | itemParamValue => 5
  | itemValue => 6
  | itemColon => 7
  | itemSemiColon => 8
  | itemEqual => 9
  | itemComma => 10
  | itemKeyword => 11
  | itemBeginVCalendar => 12
  | itemEndVCalendar => 13
  | itemBeginVEvent => 14
  | itemEndVEvent => 15
  | itemBeginVAlarm => 16
  | itemEndVAlarm => 17

/-- item represents a token or text string returned from the scanner. -/
structure Item where
  typ : ItemType
  pos : Nat
  val : String
deriving DecidableEq, Repr

/-- unicode.IsLetter and unicode.IsDigit combined with hyphen: the name
character class of the lexer (`isName`), exact on ASCII; code points above
0x7F are classed as letters (the dominant class there), which no claim
consults. -/
def isName (c : Char) : Bool :=
  ('A' ≤ c && c ≤ 'Z') || ('a' ≤ c && c ≤ 'z') || ('0' ≤ c && c ≤ '9') ||
    c = '-' || c.toNat ≥ 0x80

/-- unicode.IsControl: the Unicode Cc class, i.e. C0, DEL and C1. -/
def unicodeIsControl (c : Char) : Bool :=
  c.toNat < 0x20 || c.toNat = 0x7F || (0x80 ≤ c.toNat && c.toNat ≤ 0x9F)

/-- isQSafeChar: any character except CONTROL and DQUOTE (the lexer). -/
def isQSafeChar (c : Char) : Bool :=
  !unicodeIsControl c && c ≠ '"'

/-- isSafeChar: any character except CONTROL, DQUOTE, ";", ":", ","
(the lexer). -/
def isSafeChar (c : Char) : Bool :=
  !unicodeIsControl c && c ≠ '"' && c ≠ ';' && c ≠ ':' && c ≠ ','

/-- unicode.IsGraphic, exact on ASCII (space through tilde); code points from
0xA0 up are classed graphic, which no claim consults. -/
def unicodeIsGraphic (c : Char) : Bool :=
  (0x20 ≤ c.toNat && c.toNat ≤ 0x7E) || 0xA0 ≤ c.toNat

/-- Length of the longest run of characters satisfying `p` at the front of the
list: the "absorb" loops of the lexer's state functions. -/
def countWhile (p : Char → Bool) : List Char → Nat
  | [] => 0
  | c :: cs => if p c then countWhile p cs + 1 else 0

/-- lexer holds the state of the scanner: the input and the `start`/`pos`
cursors (byte positions; the modelled inputs are ASCII so byte and rune
positions agree). -/
structure LexerSt where
  input : List Char
  start : Nat
  pos : Nat
deriving DecidableEq, Repr

/-- The state functions of the scanner, as a first-class state tag. -/
inductive LexState where
  | name
  | contentLine
  | paramName
  | paramValue
  | value
  | newLine
deriving DecidableEq, Repr

/-- Result of running one state function: `cont` emits items and continues in
a next state, `halt` emits items and returns the nil state (the run loop
stops and the item channel closes), `diverge` marks the Go code looping
forever without emitting further items (the `param-value` absorb loops treat
the EOF pseudo-rune as safe and stop advancing), and `panicked` marks a Go
runtime panic (slicing past the end of the input in `lexNewLine`). -/
inductive LexStep where
  | cont (emitted : List Item) (st : LexerSt) (next : LexState)
  | halt (emitted : List Item)
  | diverge (emitted : List Item)
  | panicked (emitted : List Item)
deriving DecidableEq, Repr

/-- The item `l.emit(t)` sends: value `input[start:pos]`. -/
def emitted (st : LexerSt) (t : ItemType) (pos' : Nat) : Item :=
  { typ := t, pos := st.start,
    val := String.mk ((st.input.drop st.start).take (pos' - st.start)) }

/-- The fixed keyword strings of the lexer file. -/
def crlf : List Char := '\r' :: '\n' :: []

def beginVCalendar : List Char := "BEGIN:VCALENDAR".data

def endVCalendar : List Char := "END:VCALENDAR".data

def beginVEvent : List Char := "BEGIN:VEVENT".data

def endVEvent : List Char := "END:VEVENT".data

/-- lexName scans the name in the content line: first the four literal
delimiter keyword checks of the lexer revision under `src`, then the generic
identifier loop. -/
def lexName (st : LexerSt) : LexStep :=
  let rem := st.input.drop st.pos
  if listStartsWith rem beginVCalendar then
    let p := st.pos + beginVCalendar.length
    LexStep.cont [emitted st ItemType.itemBeginVCalendar p]
      { st with start := p, pos := p } LexState.newLine
  else if listStartsWith rem endVCalendar then
    let p := st.pos + endVCalendar.length
    LexStep.cont [emitted st ItemType.itemEndVCalendar p]
      { st with start := p, pos := p } LexState.newLine
  else if listStartsWith rem beginVEvent then
    let p := st.pos + beginVEvent.length
    LexStep.cont [emitted st ItemType.itemBeginVEvent p]
      { st with start := p, pos := p } LexState.newLine
  else if listStartsWith rem endVEvent then
    let p := st.pos + endVEvent.length
    LexStep.cont [emitted st ItemType.itemEndVEvent p]
      { st with start := p, pos := p } LexState.newLine
  else
    let p := st.pos + countWhile isName rem
    LexStep.cont [emitted st ItemType.itemName p]
      { st with start := p, pos := p } LexState.contentLine

/-- lexContentLine: one character selects the branch; any other character
(or end of input) is a lexical error, returned terminally
(`return l.errorf(...)`). -/
def lexContentLine (st : LexerSt) : LexStep :=
  match st.input.get? st.pos with
  | some ';' =>
    LexStep.cont [emitted st ItemType.itemSemiColon (st.pos + 1)]
      { st with start := st.pos + 1, pos := st.pos + 1 } LexState.paramName
  | some ':' =>
    LexStep.cont [emitted st ItemType.itemColon (st.pos + 1)]
      { st with start := st.pos + 1, pos := st.pos + 1 } LexState.value
  | some ',' =>
    LexStep.cont [emitted st ItemType.itemComma (st.pos + 1)]
      { st with start := st.pos + 1, pos := st.pos + 1 } LexState.paramValue
  | _ =>
    LexStep.halt
      [{ typ := ItemType.itemError, pos := st.start,
         val := "unrecognized character in action" }]

/-- lexParamName: the identifier loop, then the next character must be `=`
(emitting `equal`) or the error is returned terminally. -/
def lexParamName (st : LexerSt) : LexStep :=
  let p := st.pos + countWhile isName (st.input.drop st.pos)
  let nameItem := emitted st ItemType.itemParamName p
  let st := { st with start := p, pos := p }
  match st.input.get? st.pos with
  | some '=' =>
    LexStep.cont [nameItem, emitted st ItemType.itemEqual (st.pos + 1)]
      { st with start := st.pos + 1, pos := st.pos + 1 } LexState.paramValue
  | _ =>
    LexStep.halt
      [nameItem,
       { typ := ItemType.itemError, pos := st.start,
         val := "missing \"=\" sign after param name" }]

/-- lexParamValue: a quoted string of QSAFE characters requiring a closing
quote, or a run of SAFE characters.  Two Go subtleties are modelled exactly:
the absorb loops treat the EOF pseudo-rune as safe, so reaching the end of
the input inside either loop spins forever (`diverge`); and a missing closing
quote calls `l.errorf` without returning its result, so the error item is
emitted and scanning continues in `lexContentLine`. -/
def lexParamValue (st : LexerSt) : LexStep :=
  match st.input.get? st.pos with
  | some '"' =>
    let st := { st with start := st.pos + 1, pos := st.pos + 1 }
    let rem := st.input.drop st.pos
    let n := countWhile isQSafeChar rem
    if n = rem.length then LexStep.diverge []
    else
      let valItem := emitted st ItemType.itemParamValue (st.pos + n)
      let st := { st with start := st.pos + n, pos := st.pos + n }
      match st.input.get? st.pos with
      | some '"' =>
        LexStep.cont [valItem]
          { st with start := st.pos + 1, pos := st.pos + 1 } LexState.contentLine
      | some _ =>
        LexStep.cont
          [valItem,
           { typ := ItemType.itemError, pos := st.start,
             val := "Missing \" for closing value" }]
          { st with pos := st.pos + 1 } LexState.contentLine
      | none =>
        LexStep.cont
          [valItem,
           { typ := ItemType.itemError, pos := st.start,
             val := "Missing \" for closing value" }]
          st LexState.contentLine
  | _ =>
    let rem := st.input.drop st.pos
    let n := countWhile isSafeChar rem
    if n = rem.length then LexStep.diverge []
    else
      let p := st.pos + n
      LexStep.cont [emitted st ItemType.itemParamValue p]
        { st with start := p, pos := p } LexState.contentLine

/-- lexValue: absorb graphic characters, emit `value`, move to line-end
scanning. -/
def lexValue (st : LexerSt) : LexStep :=
  let p := st.pos + countWhile unicodeIsGraphic (st.input.drop st.pos)
  LexStep.cont [emitted st ItemType.itemValue p]
    { st with start := p, pos := p } LexState.newLine

/-- lexNewLine scans CRLF.  At end of input it returns nil silently.  A
malformed terminator calls `l.errorf` without returning its result, so the
error item is emitted and the code still advances by two bytes and emits the
`line-end` item; if fewer than two bytes remain this slicing panics. -/
def lexNewLine (st : LexerSt) : LexStep :=
  if st.input.length ≤ st.pos then
    LexStep.halt []
  else
    let rem := st.input.drop st.pos
    let errs : List Item :=
      if listStartsWith rem crlf then []
      else
        [{ typ := ItemType.itemError, pos := st.start,
           val := "unable to find end of line \"CRLF\"" }]
    if st.input.length < st.pos + 2 then
      LexStep.panicked errs
    else
      let p := st.pos + 2
      let lineEndItem := emitted st ItemType.itemLineEnd p
      let st := { st with start := p, pos := p }
      if st.input.length ≤ st.pos then
        LexStep.halt (errs ++ [lineEndItem, emitted st ItemType.itemEOF st.pos])
      else
        LexStep.cont (errs ++ [lineEndItem]) st LexState.name

/-- Dispatch a state tag to its state function. -/
def lexDispatch : LexState → LexerSt → LexStep
  | LexState.name => lexName
  | LexState.contentLine => lexContentLine
  | LexState.paramName => lexParamName
  | LexState.paramValue => lexParamValue
  | LexState.value => lexValue
  | LexState.newLine => lexNewLine

/-- How the token stream ends: the run loop returned nil and closed the
channel (`closed`), the lexing goroutine loops forever (`diverged`), it
panicked (`panicked`), or the fuel bound was reached (never, for the inputs
evaluated here). -/
inductive LexEnd where
  | closed
  | diverged
  | panicked
  | fuelOut
deriving DecidableEq, Repr

/-- The run loop of the lexer (`l.run()`): iterate state functions from
`lexName`, concatenating the emitted items.  `fuel` bounds the number of
state-function invocations. -/
def runLex : Nat → LexState → LexerSt → List Item × LexEnd
  | 0, _, _ => ([], LexEnd.fuelOut)
  | fuel + 1, s, st =>
    match lexDispatch s st with
    | LexStep.halt items => (items, LexEnd.closed)
    | LexStep.diverge items => (items, LexEnd.diverged)
    | LexStep.panicked items => (items, LexEnd.panicked)
    | LexStep.cont items st' s' =>
      let (rest, e) := runLex fuel s' st'
      (items ++ rest, e)

/-- lex creates a new scanner for the input string and runs it to completion,
returning the full emitted token sequence (the channel hand-off only
serializes production and consumption; the sequence of items is as emitted). -/
def lexAll (input : List Char) : List Item × LexEnd :=
  runLex (2 * input.length + 8) LexState.name
    { input := input, start := 0, pos := 0 }

/-- The scope constants of `parse.go` (`scopeCalendar`/`scopeEvent`/
`scopeAlarm` by `iota`); the scope field is a Go `int` and the parser only
ever increments and decrements it, so it can pass below zero. -/
def scopeCalendar : Int := 0

def scopeEvent : Int := 1

def scopeAlarm : Int := 2

/-- The zero `item{}` value: receiving from the lexer's closed channel yields
it (its `typ` is `itemError`, the zero `itemType`). -/
def zeroItem : Item :=
  { typ := ItemType.itemError, pos := 0, val := "" }

/-- `p.next()` on the modelled token stream; an exhausted stream behaves like
the closed channel and yields the zero item.  `p.backup()`/`p.peek()` are
modelled by simply not consuming the stream. -/
def nextTok : List Item → Item × List Item
  | [] => (zeroItem, [])
  | t :: ts => (t, ts)

/-- The parser state of `parse.go`: the remaining token stream, the scope
depth, the calendar under construction and the in-progress event and alarm
pointers (`nil` at parse start). -/
structure ParserSt where
  toks : List Item
  scope : Int
  c : Calendar
  v : Option Event
  a : Option Alarm
deriving DecidableEq, Repr

/-- Result of `scanDelimiter`: a continuation state, the `errorDone`
termination from `END:VCALENDAR`, an error, or a Go nil-pointer panic
(dereferencing `p.v`/`p.a` when no component was ever opened). -/
inductive DelimRes where
  | ok (st : ParserSt)
  | done (st : ParserSt)
  | err (msg : String)
  | panicked
deriving DecidableEq, Repr

/-- scanDelimiter switch scope and validate related component (`parse.go`
lines 198-259).  Note: the `END:VEVENT` and `END:VCALENDAR` branches check
the scope; the `END:VALARM` branch performs no scope check at all. -/
def scanDelimiter (localOff : Int) (st : ParserSt) (delim : Item) : DelimRes :=
  if delim.typ = ItemType.itemBeginVEvent then
    match validateCalendar st.c with
    | Except.error e => DelimRes.err e
    | Except.ok c' =>
      let st := { st with c := c', v := some NewEvent, scope := st.scope + 1 }
      let (it, rest) := nextTok st.toks
      if it.typ ≠ ItemType.itemLineEnd then DelimRes.err "found item, expected CRLF"
      else DelimRes.ok { st with toks := rest }
  else if delim.typ = ItemType.itemEndVEvent then
    if st.scope > scopeEvent then
      DelimRes.err "found END:VEVENT, expeced END:VALARM"
    else
      match st.v with
      | none => DelimRes.panicked
      | some v =>
        match validateEvent localOff v with
        | Except.error e => DelimRes.err e
        | Except.ok v' =>
          let st :=
            { st with
              c := { st.c with Events := st.c.Events ++ [v'] },
              v := some v',
              scope := st.scope - 1 }
          let (it, rest) := nextTok st.toks
          if it.typ ≠ ItemType.itemLineEnd then DelimRes.err "found item, expected CRLF"
          else DelimRes.ok { st with toks := rest }
  else if delim.typ = ItemType.itemBeginVAlarm then
    let st := { st with a := some NewAlarm, scope := st.scope + 1 }
    let (it, rest) := nextTok st.toks
    if it.typ ≠ ItemType.itemLineEnd then DelimRes.err "found item, expected CRLF"
    else DelimRes.ok { st with toks := rest }
  else if delim.typ = ItemType.itemEndVAlarm then
    match st.a with
    | none => DelimRes.panicked
    | some a =>
      match validateAlarm a with
      | Except.error e => DelimRes.err e
      | Except.ok a' =>
        match st.v with
        | none => DelimRes.panicked
        | some v =>
          let st :=
            { st with
              v := some { v with Alarms := v.Alarms ++ [a'] },
              a := some a',
              scope := st.scope - 1 }
          let (it, rest) := nextTok st.toks
          if it.typ ≠ ItemType.itemLineEnd then DelimRes.err "found item, expected CRLF"
          else DelimRes.ok { st with toks := rest }
  else if delim.typ = ItemType.itemEndVCalendar then
    if st.scope > scopeCalendar then
      DelimRes.err "found END:VCALENDAR, expeced END:VEVENT"
    else
      DelimRes.done st
  else
    DelimRes.ok st

/-- The comma loop of scanValues (`parse.go` lines 350-365): a non-comma
token is pushed back and the values collected so far returned. -/
def scanValuesLoop : Nat → List String → List Item →
    Except String (List String × List Item)
  | 0, _, _ => Except.error "out of fuel"
  | fuel + 1, vals, toks =>
    let (it, rest) := nextTok toks
    if it.typ ≠ ItemType.itemComma then Except.ok (vals, toks)
    else
      let (pv, rest2) := nextTok rest
      if pv.typ ≠ ItemType.itemParamValue then
        Except.error "found item, expected a param-value"
      else scanValuesLoop fuel (vals ++ [pv.val]) rest2

/-- scanValues parses a list of at least one value for a param (`parse.go`
lines 341-366). -/
def scanValues (fuel : Nat) (toks : List Item) :
    Except String (List String × List Item) :=
  let (pv, rest) := nextTok toks
  if pv.typ ≠ ItemType.itemParamValue then
    Except.error "found item, expected a param-value"
  else scanValuesLoop fuel [pv.val] rest

/-- scanParams parses a list of param inside a content-line (`parse.go`
lines 311-338): a non-semicolon token is pushed back and the accumulated
parameter map returned. -/
def scanParams : Nat → List (String × Param) → List Item →
    Except String (List (String × Param) × List Item)
  | 0, _, _ => Except.error "out of fuel"
  | fuel + 1, params, toks =>
    let (it, rest) := nextTok toks
    if it.typ ≠ ItemType.itemSemiColon then Except.ok (params, toks)
    else
      let (pn, rest2) := nextTok rest
      if pn.typ ≠ ItemType.itemParamName then
        Except.error "found item, expected a param-name"
      else
        let (eq, rest3) := nextTok rest2
        if eq.typ ≠ ItemType.itemEqual then Except.error "found item, expected ="
        else
          match scanValues fuel rest3 with
          | Except.error e => Except.error e
          | Except.ok (vals, rest4) =>
            scanParams fuel (paramsInsert params pn.val { Values := vals }) rest4

/-- isItemName checks if the item is an ical name (the lexer file). -/
def isItemName (i : Item) : Bool :=
  i.typ = ItemType.itemName

/-- Result of `scanContentLine` as seen by the parse loop. -/
inductive PRes where
  | ok (st : ParserSt)
  | done (st : ParserSt)
  | err (msg : String)
  | panicked
deriving DecidableEq, Repr

/-- scanContentLine parses a content-line of a calendar (`parse.go` lines
262-308): a token above `itemKeyword` is routed to `scanDelimiter` and the
scan restarts; otherwise a `name params? colon value line-end` sequence is
required and the finished property appended to the component selected by the
current scope (a scope outside 0..2 appends nowhere). -/
def scanContentLine (localOff : Int) : Nat → ParserSt → PRes
  | 0, _ => PRes.err "out of fuel"
  | fuel + 1, st0 =>
    let (name, rest) := nextTok st0.toks
    let st := { st0 with toks := rest }
    if ItemType.itemKeyword.code < name.typ.code then
      match scanDelimiter localOff st name with
      | DelimRes.err e => PRes.err e
      | DelimRes.done st' => PRes.done st'
      | DelimRes.panicked => PRes.panicked
      | DelimRes.ok st' => scanContentLine localOff fuel st'
    else if ¬ isItemName name then
      PRes.err "found item, expected a name token"
    else
      match scanParams (fuel + 1) [] st.toks with
      | Except.error e => PRes.err e
      | Except.ok (params, rest2) =>
        let (colon, rest3) := nextTok rest2
        if colon.typ ≠ ItemType.itemColon then PRes.err "found item, expected colon"
        else
          let (value, rest4) := nextTok rest3
          if value.typ ≠ ItemType.itemValue then PRes.err "found item, expected a value"
          else
            let (le, rest5) := nextTok rest4
            if le.typ ≠ ItemType.itemLineEnd then PRes.err "found item, expected CRLF"
            else
              let prop : Property :=
                { Name := name.val, Params := params, Value := value.val }
              if st.scope = scopeCalendar then
                PRes.ok
                  { st with
                    toks := rest5,
                    c := { st.c with Properties := st.c.Properties ++ [prop] } }
              else if st.scope = scopeEvent then
                match st.v with
                | none => PRes.panicked
                | some v =>
                  PRes.ok
                    { st with
                      toks := rest5,
                      v := some { v with Properties := v.Properties ++ [prop] } }
              else if st.scope = scopeAlarm then
                match st.a with
                | none => PRes.panicked
                | some a =>
                  PRes.ok
                    { st with
                      toks := rest5,
                      a := some { a with Properties := a.Properties ++ [prop] } }
              else
                PRes.ok { st with toks := rest5 }

/-- The observable result of a parse call. -/
inductive ParseOut where
  | ok (c : Calendar)
  | err (msg : String)
  | panicked
  | blocked
deriving DecidableEq, Repr

/-- The content-line loop of `parse` (`parse.go` lines 182-192): repeat until
`errorDone` (success, returning `p.c`) or an error. -/
def parseLoop (localOff : Int) : Nat → ParserSt → ParseOut
  | 0, _ => ParseOut.err "out of fuel"
  | fuel + 1, st =>
    match scanContentLine localOff (fuel + 1) st with
    | PRes.done st' => ParseOut.ok st'.c
    | PRes.err e => ParseOut.err e
    | PRes.panicked => ParseOut.panicked
    | PRes.ok st' => parseLoop localOff fuel st'

/-- parse (`parse.go` lines 173-195): expect `BEGIN:VCALENDAR` then a
line-end, then run the content-line loop.  The fuel is a bound on loop
iterations; every iteration consumes at least one token, so it is never
exhausted on the streams evaluated here. -/
def parse (localOff : Int) (toks : List Item) : ParseOut :=
  let (it1, t1) := nextTok toks
  if it1.typ ≠ ItemType.itemBeginVCalendar then
    ParseOut.err "found item, expected BEGIN:VCALENDAR"
  else
    let (it2, t2) := nextTok t1
    if it2.typ ≠ ItemType.itemLineEnd then ParseOut.err "found item, expected CRLF"
    else
      parseLoop localOff (t2.length + 2)
        { toks := t2, scope := scopeCalendar, c := NewCalendar, v := none, a := none }

/-- unfold convert multiple line value to one line (`parse.go` line 118):
`strings.Replace(text, "backslash-r backslash-n space", "", -1)`. -/
def unfoldInput : List Char → List Char
  | '\r' :: '\n' :: ' ' :: rest => unfoldInput rest
  | c :: rest => c :: unfoldInput rest
  | [] => []

/-- Parse transforms the raw iCalendar into a Calendar struct (`parse.go`
lines 65-78): unfold, lex, parse.  A lexing goroutine that diverges or
panics leaves the parse call blocked or crashes the process; every input
evaluated in this development lexes to a cleanly closed stream. -/
def Parse (localOff : Int) (input : String) : ParseOut :=
  match lexAll (unfoldInput input.data) with
  | (items, LexEnd.closed) => parse localOff items
  | (_, LexEnd.diverged) => ParseOut.blocked
  | (_, LexEnd.panicked) => ParseOut.panicked
  | (_, LexEnd.fuelOut) => ParseOut.err "out of fuel"

/-- The CRLF terminator and the alarm keyword constants used by the formatter
(`beginValarm`/`endVAlarm` in the repository). -/
def crlfS : String := "\r\n"

def beginValarm : String := "BEGIN:VALARM"

def endVAlarm : String := "END:VALARM"

/-- Go `strconv.Quote` restricted to the printable ASCII range: quote and
backslash are escaped, other printable ASCII characters pass through.  (The
numeric escapes Go emits for non-printable or non-ASCII runes are abbreviated
to a backslash escape; no property formatted in this development carries
parameters, which are the only quoted strings.) -/
def quoteChar (c : Char) : List Char :=
  if c = '"' then '\\' :: '"' :: []
  else if c = '\\' then '\\' :: '\\' :: []
  else [c]

def strconvQuote (s : String) : String :=
  "\"" ++ String.mk (s.data.map quoteChar).flatten ++ "\""

/-- formatProperty (the formatter): name, each parameter as
`;name=quoted,quoted,...` (the Go map iteration order modelled as the
association-list order), colon, raw value, CRLF. -/
def formatProperty (prop : Property) : String :=
  prop.Name ++
    String.join (prop.Params.map (fun kv =>
      ";" ++ kv.1 ++ "=" ++
        String.intercalate "," (kv.2.Values.map strconvQuote))) ++
    ":" ++ prop.Value ++ crlfS

/-- formatPropertiesList (the formatter). -/
def formatPropertiesList (props : List Property) : String :=
  String.join (props.map formatProperty)

/-- Insert-or-replace into the `map[string]*Property` of setProperties. -/
def propMapInsert (m : List (String × Property)) (name : String) (p : Property) :
    List (String × Property) :=
  if (m.find? (fun kv => kv.1 = name)).isSome then
    m.map (fun kv => if kv.1 = name then (name, p) else kv)
  else
    m ++ [(name, p)]

/-- The replacement loop of setProperties: walk the existing list, substitute
the new property with a matching name and delete it from the map. -/
def setPropsLoop : List Property → List (String × Property) →
    List Property × List (String × Property)
  | [], m => ([], m)
  | p :: rest, m =>
    match m.find? (fun kv => kv.1 = p.Name) with
    | some kv =>
      let (l', m') := setPropsLoop rest (m.filter (fun kv2 => kv2.1 ≠ p.Name))
      (kv.2 :: l', m')
    | none =>
      let (l', m') := setPropsLoop rest m
      (p :: l', m')

/-- setProperties (the formatter): replace in place the properties whose name
has a replacement, then append the replacements that matched nothing. -/
def setProperties (l newProps : List Property) : List Property :=
  let m := newProps.foldl (fun m np => propMapInsert m np.Name np) []
  let (l2, m2) := setPropsLoop l m
  l2 ++ newProps.filter (fun np => (m2.find? (fun kv => kv.1 = np.Name)).isSome)

/-- formatAlarm (the formatter). -/
def formatAlarm (alarm : Alarm) : String :=
  let props : List Property :=
    (if alarm.Action ≠ "" then [{ Name := "ACTION", Params := [], Value := alarm.Action }] else []) ++
    (if alarm.Trigger ≠ "" then [{ Name := "TRIGGER", Params := [], Value := alarm.Trigger }] else [])
  let properties := setProperties alarm.Properties props
  beginValarm ++ crlfS ++ formatPropertiesList properties ++ endVAlarm ++ crlfS

/-- formatEvent (the formatter): the typed fields that are set are written
back over the raw property list (a non-zero time is re-rendered through the
UTC date-time layout in the time's own location), then the lines are
emitted. -/
def formatEvent (localOff : Int) (event : Event) : String :=
  let props : List Property :=
    (if event.UID ≠ "" then [{ Name := "UID", Params := [], Value := event.UID }] else []) ++
    (if ¬ event.Timestamp.isZero then
      [{ Name := "DTSTAMP", Params := [],
         Value := event.Timestamp.formatDateTimeUTC localOff }] else []) ++
    (if ¬ event.StartDate.isZero then
      [{ Name := "DTSTART", Params := [],
         Value := event.StartDate.formatDateTimeUTC localOff }] else []) ++
    (if ¬ event.EndDate.isZero then
      [{ Name := "DTEND", Params := [],
         Value := event.EndDate.formatDateTimeUTC localOff }] else []) ++
    (if event.Summary ≠ "" then
      [{ Name := "SUMMARY", Params := [], Value := event.Summary }] else []) ++
    (if event.Description ≠ "" then
      [{ Name := "DESCRIPTION", Params := [], Value := event.Description }] else [])
  let properties := setProperties event.Properties props
  "BEGIN:VEVENT" ++ crlfS ++ formatPropertiesList properties ++
    String.join (event.Alarms.map formatAlarm) ++ "END:VEVENT" ++ crlfS

/-- Format writes the calendar to the provided io.Writer (the formatter),
modelled as the emitted string. -/
def Format (localOff : Int) (cal : Calendar) : String :=
  let props : List Property :=
    (if cal.Prodid ≠ "" then [{ Name := "PRODID", Params := [], Value := cal.Prodid }] else []) ++
    (if cal.Version ≠ "" then [{ Name := "VERSION", Params := [], Value := cal.Version }] else []) ++
    (if cal.Calscale ≠ "" then [{ Name := "CALSCALE", Params := [], Value := cal.Calscale }] else []) ++
    (if cal.Method ≠ "" then [{ Name := "METHOD", Params := [], Value := cal.Method }] else [])
  let properties := setProperties cal.Properties props
  "BEGIN:VCALENDAR" ++ crlfS ++ formatPropertiesList properties ++
    String.join (cal.Events.map (formatEvent localOff)) ++ "END:VCALENDAR" ++ crlfS

instance {ε α : Type} [DecidableEq ε] [DecidableEq α] : DecidableEq (Except ε α) :=
  fun a b =>
    match a, b with
    | Except.error x, Except.error y =>
      if h : x = y then isTrue (by rw [h])
      else isFalse (by intro hc; cases hc; exact h rfl)
    | Except.ok x, Except.ok y =>
      if h : x = y then isTrue (by rw [h])
      else isFalse (by intro hc; cases hc; exact h rfl)
    | Except.error _, Except.ok _ => isFalse (by intro hc; cases hc)
    | Except.ok _, Except.error _ => isFalse (by intro hc; cases hc)

set_option maxRecDepth 16000

set_option maxHeartbeats 4000000

/-- Did the fallible call succeed? -/
def isOkE {α : Type} : Except String α → Bool
  | Except.ok _ => true
  | Except.error _ => false

/-- Did the parse call succeed? -/
def ParseOut.isOk : ParseOut → Bool
  | ParseOut.ok _ => true
  | _ => false

/-- Number of occurrences of a property name in a raw property list. -/
def countProp (name : String) : List Property → Nat
  | [] => 0
  | p :: ps => (if p.Name = name then 1 else 0) + countProp name ps

/-- Re-parse the formatted rendering of a successfully parsed calendar
(the parse half of the round-trip is left untouched on failure). -/
def reParse (localOff : Int) : ParseOut → ParseOut
  | ParseOut.ok c => Parse localOff (Format localOff c)
  | r => r

/-- A calendar carrying two PRODID properties and no VERSION. -/
def c1cal : Calendar :=
  { NewCalendar with
    Properties := [{ Name := "PRODID", Params := [], Value := "a" },
                   { Name := "PRODID", Params := [], Value := "b" }] }

/-- A `DTSTART` property whose value ends in `Z` and that also carries a
`TZID` parameter naming a known zone. -/
def c2prop : Property :=
  { Name := "DTSTART", Params := [("TZID", { Values := ["America/New_York"] })],
    Value := "19980119T070000Z" }

/-- Items of the token-sequence counterexamples, at position 0 (the parser
never consults positions except in error messages). -/
def tok (t : ItemType) (v : String) : Item :=
  { typ := t, pos := 0, val := v }

/-- A token sequence containing a second `END:VALARM` delimiter at event
scope (no alarm is open at that point): a complete calendar, one event, one
complete alarm, then the stray `END:VALARM`, then the closers. -/
def c5toks : List Item :=
  [tok ItemType.itemBeginVCalendar "BEGIN:VCALENDAR", tok ItemType.itemLineEnd "\r\n",
   tok ItemType.itemName "PRODID", tok ItemType.itemColon ":",
   tok ItemType.itemValue "p", tok ItemType.itemLineEnd "\r\n",
   tok ItemType.itemName "VERSION", tok ItemType.itemColon ":",
   tok ItemType.itemValue "2.0", tok ItemType.itemLineEnd "\r\n",
   tok ItemType.itemBeginVEvent "BEGIN:VEVENT", tok ItemType.itemLineEnd "\r\n",
   tok ItemType.itemName "UID", tok ItemType.itemColon ":",
   tok ItemType.itemValue "u", tok ItemType.itemLineEnd "\r\n",
   tok ItemType.itemName "DTSTAMP", tok ItemType.itemColon ":",
   tok ItemType.itemValue "20200101T000000Z", tok ItemType.itemLineEnd "\r\n",
   tok ItemType.itemName "DTSTART", tok ItemType.itemColon ":",
   tok ItemType.itemValue "20200101T100000Z", tok ItemType.itemLineEnd "\r\n",
   tok ItemType.itemBeginVAlarm "BEGIN:VALARM", tok ItemType.itemLineEnd "\r\n",
   tok ItemType.itemName "ACTION", tok ItemType.itemColon ":",
   tok ItemType.itemValue "DISPLAY", tok ItemType.itemLineEnd "\r\n",
   tok ItemType.itemName "TRIGGER", tok ItemType.itemColon ":",
   tok ItemType.itemValue "-PT15M", tok ItemType.itemLineEnd "\r\n",
   tok ItemType.itemEndVAlarm "END:VALARM", tok ItemType.itemLineEnd "\r\n",
   tok ItemType.itemEndVAlarm "END:VALARM", tok ItemType.itemLineEnd "\r\n",
   tok ItemType.itemEndVEvent "END:VEVENT", tok ItemType.itemLineEnd "\r\n",
   tok ItemType.itemEndVCalendar "END:VCALENDAR", tok ItemType.itemLineEnd "\r\n"]

/-- An event property list with exactly one UID and one DTSTART and no
DTSTAMP. -/
def c6event : Event :=
  { NewEvent with
    Properties := [{ Name := "UID", Params := [], Value := "u" },
                   { Name := "DTSTART", Params := [], Value := "20200101T100000Z" }] }

/-- A calendar text whose Method is set and whose event carries exactly one
UID and one DTSTART but no DTSTAMP. -/
def c6text : String :=
  "BEGIN:VCALENDAR\r\nPRODID:p\r\nVERSION:2.0\r\nMETHOD:REQUEST\r\nBEGIN:VEVENT\r\nUID:1\r\nDTSTART:20200101T100000Z\r\nEND:VEVENT\r\nEND:VCALENDAR\r\n"

/-- An event with UID, DTSTAMP and DTSTART but no DTEND. -/
def c7event : Event :=
  { NewEvent with
    Properties := [{ Name := "UID", Params := [], Value := "u" },
                   { Name := "DTSTAMP", Params := [], Value := "20200101T000000Z" },
                   { Name := "DTSTART", Params := [], Value := "20200101T100000Z" }] }

/-- The validated form of `c7event`. -/
def c7result : Event :=
  { c7event with
    UID := "u",
    Timestamp := { sec := 1577836800, loc := GoLoc.utc },
    StartDate := { sec := 1577872800, loc := GoLoc.utc },
    EndDate := { sec := 1577959200, loc := GoLoc.utc } }

/-- A DTSTAMP property in the 8-character bare-date form, labelled
`VALUE=DATE`: a form the date resolver accepts. -/
def c8stamp : Property :=
  { Name := "DTSTAMP", Params := [("VALUE", { Values := ["DATE"] })],
    Value := "19980119" }

/-- An event whose DTSTAMP is `c8stamp` and which is otherwise complete. -/
def c8event : Event :=
  { NewEvent with
    Properties := [{ Name := "UID", Params := [], Value := "u" }, c8stamp,
                   { Name := "DTSTART", Params := [], Value := "20200101T100000Z" }] }

/-- The validated form of `c8event`: the Timestamp stays at the zero time. -/
def c8result : Event :=
  { c8event with
    UID := "u",
    Timestamp := goZeroTime,
    StartDate := { sec := 1577872800, loc := GoLoc.utc },
    EndDate := { sec := 1577959200, loc := GoLoc.utc } }

/-- A well-formed calendar text whose event has a DURATION and no DTEND. -/
def c10text : String :=
  "BEGIN:VCALENDAR\r\nPRODID:-//Test//EN\r\nVERSION:2.0\r\nBEGIN:VEVENT\r\nUID:1@test\r\nDTSTAMP:20200101T000000Z\r\nDTSTART:20200101T100000Z\r\nDURATION:PT1H\r\nEND:VEVENT\r\nEND:VCALENDAR\r\n"

/-- The number of alarms attached to each event of a successfully parsed
calendar. -/
def alarmsPerEvent : ParseOut → List Nat
  | ParseOut.ok c => c.Events.map (fun e => e.Alarms.length)
  | _ => []

/-- The four tokens of a parameterless content line `name:value` as the
scanner would deliver them. -/
def propLineToks (nv : String × String) : List Item :=
  [tok ItemType.itemName nv.1, tok ItemType.itemColon ":",
   tok ItemType.itemValue nv.2, tok ItemType.itemLineEnd "\r\n"]

/-- The property such a content line parses to. -/
def mkProp (nv : String × String) : Property :=
  { Name := nv.1, Params := [], Value := nv.2 }

/-- C1: the claim says validation fails whenever the property list does not
carry exactly one PRODID and exactly one VERSION, and in particular on any
duplicated PRODID.  Counterexample: a list with two PRODID and no VERSION
passes `validateCalendar` (the code only requires the two counts to sum
to 2). -/
theorem C1_counterexample :
    isOkE (validateCalendar c1cal) = true ∧
    countProp "PRODID" c1cal.Properties = 2 ∧
    countProp "VERSION" c1cal.Properties = 0 := by decide

/-- C2: the claim says a value ending in `Z` resolves through the UTC layout
regardless of a TZID parameter.  Counterexample: with a TZID parameter
present, `parseDate` parses the value against the 15-character localized
layout, which fails on the 16-character `Z`-suffixed value (for any system
local zone offset), even though the UTC-layout parse of the same value
succeeds. -/
theorem C2_counterexample :
    parseDate 0 c2prop = Except.error "extra text" ∧
    parseDate 3600 c2prop = Except.error "extra text" ∧
    timeParse GoLayout.dateTimeLayoutUTC c2prop.Value =
      Except.ok { sec := 885193200, loc := GoLoc.utc } := by decide

/-- C3: the claim says a lexical error is terminal: exactly one error token
and nothing after it.  Evaluating the scanner at the failing inputs: on
`BEGIN:VCALENDARxx` (malformed line terminator) `lexNewLine` emits the error
token but ignores the terminal state `errorf` returns, so a line-end token
and the EOF token are still emitted after the error token; on an unterminated
quoted param-value `lexParamValue` does the same and the scan continues into
a second error token. -/
theorem C3_error_token_not_terminal :
    lexAll "BEGIN:VCALENDARxx".data =
      ([{ typ := ItemType.itemBeginVCalendar, pos := 0, val := "BEGIN:VCALENDAR" },
        { typ := ItemType.itemError, pos := 15, val := "unable to find end of line \"CRLF\"" },
        { typ := ItemType.itemLineEnd, pos := 15, val := "xx" },
        { typ := ItemType.itemEOF, pos := 17, val := "" }], LexEnd.closed) ∧
    lexAll "A;B=\"x\r\n".data =
      ([{ typ := ItemType.itemName, pos := 0, val := "A" },
        { typ := ItemType.itemSemiColon, pos := 1, val := ";" },
        { typ := ItemType.itemParamName, pos := 2, val := "B" },
        { typ := ItemType.itemEqual, pos := 3, val := "=" },
        { typ := ItemType.itemParamValue, pos := 5, val := "x" },
        { typ := ItemType.itemError, pos := 6, val := "Missing \" for closing value" },
        { typ := ItemType.itemError, pos := 6, val := "unrecognized character in action" }],
       LexEnd.closed) := by
  exact ⟨by decide, by decide⟩

/-- C4: the claim says a line beginning `BEGIN:VALARM` yields the alarm
delimiter token.  Counterexample: the scanner's keyword table has only the
four VCALENDAR/VEVENT delimiters, so the line lexes as the generic name
`BEGIN`, a colon and the value `VALARM`. -/
theorem C4_counterexample :
    lexAll "BEGIN:VALARM\r\n".data =
      ([{ typ := ItemType.itemName, pos := 0, val := "BEGIN" },
        { typ := ItemType.itemColon, pos := 5, val := ":" },
        { typ := ItemType.itemValue, pos := 6, val := "VALARM" },
        { typ := ItemType.itemLineEnd, pos := 12, val := "\r\n" },
        { typ := ItemType.itemEOF, pos := 14, val := "" }], LexEnd.closed) := by decide

/-- C5: the claim says a token sequence with `END:VALARM` outside alarm scope
is rejected.  Counterexample: `c5toks` closes its alarm twice — the second
`END:VALARM` arrives at event scope — yet the parse succeeds, re-validating
and re-appending the finished alarm (the event ends with two alarms) because
the `END:VALARM` branch of `scanDelimiter` has no scope check. -/
theorem C5_counterexample :
    (parse 0 c5toks).isOk = true ∧ alarmsPerEvent (parse 0 c5toks) = [2] := by
  exact ⟨by decide, by decide⟩

/-- C6: the claim says an event with exactly one UID and one DTSTART and no
DTSTAMP validates successfully when the enclosing calendar's Method is set.
Counterexample: with `METHOD:REQUEST` on the calendar, the parse still fails
with the missing-required-property error — `validateEvent` never sees the
calendar and counts DTSTAMP unconditionally. -/
theorem C6_counterexample :
    Parse 0 c6text =
      ParseOut.err "missing either required property \"dtstamp / uid / dtstart /\"" ∧
    isOkE (validateEvent 0 c6event) = false ∧
    countProp "UID" c6event.Properties = 1 ∧
    countProp "DTSTART" c6event.Properties = 1 ∧
    countProp "DTSTAMP" c6event.Properties = 0 := by
  exact ⟨by decide, by decide, by decide, by decide, by decide⟩

/-- C8: the claim says the DTSTAMP raw value goes through the section 4.4
resolver, so any form the resolver accepts yields a non-zero Timestamp.
Counterexample: a DTSTAMP in the 8-character bare-date form with VALUE=DATE
is accepted by `parseDate`, yet after a successful validation the event's
Timestamp is the zero time, because DTSTAMP is parsed only with the UTC
date-time layout. -/
theorem C8_counterexample :
    parseDate 0 c8stamp = Except.ok { sec := 885168000, loc := GoLoc.utc } ∧
    validateEvent 0 c8event = Except.ok c8result ∧
    c8result.Timestamp = goZeroTime := by
  exact ⟨by decide, by decide, by decide⟩

/-- The parse loop consumes any sequence of parameterless content lines
followed by `END:VCALENDAR` at calendar scope, appending each property and
terminating successfully without any validation. -/
theorem parseLoop_lines (localOff : Int) :
    ∀ (lines : List (String × String)) (fuel : Nat) (st : ParserSt),
      st.scope = 0 →
      st.toks = (lines.map propLineToks).flatten ++
        [tok ItemType.itemEndVCalendar "END:VCALENDAR"] →
      lines.length < fuel →
      parseLoop localOff fuel st =
        ParseOut.ok { st.c with Properties := st.c.Properties ++ lines.map mkProp } := by
  intro lines
  induction lines with
  | nil =>
    intro fuel st h0 ht hf
    cases fuel with
    | zero => omega
    | succ m =>
      simp only [parseLoop, scanContentLine, ht, nextTok, tok]
      simp only [ItemType.code, scanDelimiter, h0, scopeCalendar]
      simp
  | cons l ls ih =>
    intro fuel st h0 ht hf
    cases fuel with
    | zero => omega
    | succ m =>
      simp only [List.map, List.flatten, propLineToks, List.append_assoc,
        List.cons_append, List.nil_append] at ht
      simp only [parseLoop, scanContentLine, ht, nextTok, tok]
      simp only [ItemType.code, isItemName]
      simp only [scanParams, nextTok, ItemType.itemColon, h0, scopeCalendar]
      simp only [reduceIte]
      simp only [scanValues, nextTok]
      simp
      rw [ih m _ rfl rfl (by simp at hf; omega)]
      simp [mkProp]

/-- Each parameterless content line contributes four tokens. -/
theorem propLineToks_flatten_length (lines : List (String × String)) :
    (lines.map propLineToks).flatten.length = 4 * lines.length := by
  induction lines with
  | nil => simp
  | cons l ls ih => simp [propLineToks, ih]; omega

/-- C9: calendar-level validation runs exactly at `BEGIN:VEVENT`: a calendar
containing zero events is never validated — for every list of content lines,
the zero-event token stream parses successfully with the lines stored
unvalidated — while every `BEGIN:VEVENT` delimiter surfaces the calendar
validation error; concretely, `BEGIN:VCALENDAR` immediately followed by
`END:VCALENDAR` succeeds with PRODID and VERSION absent, and the same header
followed by `BEGIN:VEVENT` fails there. -/
theorem C9_validation_only_at_begin_vevent :
    (∀ (localOff : Int) (lines : List (String × String)),
      parse localOff
          (tok ItemType.itemBeginVCalendar "BEGIN:VCALENDAR" ::
            tok ItemType.itemLineEnd "\r\n" ::
            ((lines.map propLineToks).flatten ++
              [tok ItemType.itemEndVCalendar "END:VCALENDAR"])) =
        ParseOut.ok { NewCalendar with Properties := lines.map mkProp }) ∧
    (∀ (localOff : Int) (st : ParserSt) (e : String),
      validateCalendar st.c = Except.error e →
      scanDelimiter localOff st (tok ItemType.itemBeginVEvent "BEGIN:VEVENT") =
        DelimRes.err e) ∧
    Parse 0 "BEGIN:VCALENDAR\r\nEND:VCALENDAR\r\n" = ParseOut.ok NewCalendar ∧
    Parse 0 "BEGIN:VCALENDAR\r\nBEGIN:VEVENT\r\n" =
      ParseOut.err "missing either required property \"prodid / version /\"" := by
  refine ⟨?_, ?_, by decide, by decide⟩
  · intro localOff lines
    simp only [parse, nextTok, tok]
    simp only [reduceCtorEq, ne_eq, reduceIte]
    rw [parseLoop_lines localOff lines _ _ rfl rfl
      (by simp only [List.length_append, propLineToks_flatten_length,
        List.length_singleton]; omega)]
    simp [NewCalendar]
  · intro localOff st e h
    simp [scanDelimiter, tok, h]

/-- Witness for C9: the `BEGIN:VEVENT` validation hook evaluated on the empty
calendar. -/
theorem C9_witness :
    scanDelimiter 0 { toks := [], scope := 0, c := NewCalendar, v := none, a := none }
        (tok ItemType.itemBeginVEvent "BEGIN:VEVENT") =
      DelimRes.err "missing either required property \"prodid / version /\"" :=
  C9_validation_only_at_begin_vevent.2.1 0 _ _ (by decide)

/-- C10: the claim says parse-format-parse succeeds and preserves the modelled
fields.  Evaluating the pipeline at the failing input `c10text` (an event
with DURATION and no DTEND): the first parse succeeds and defaults EndDate,
the formatter then emits a DTEND line for the now non-zero EndDate next to
the retained DURATION line, and the re-parse rejects the event with the
DTEND/DURATION mutual-exclusion error.  (The behaviour is independent of the
modelled system zone — every date involved is UTC — as evaluated at the two
local offsets 0 and 3600.) -/
theorem C10_roundtrip_reparse_fails :
    (Parse 0 c10text).isOk = true ∧
    reParse 0 (Parse 0 c10text) =
      ParseOut.err "Either \"dtend\" or \"duration\" MAY appear" ∧
    reParse 3600 (Parse 3600 c10text) =
      ParseOut.err "Either \"dtend\" or \"duration\" MAY appear" := by
  exact ⟨by decide, by decide, by decide⟩

/-- The requiredCount accumulated by the validateCalendar property loop is
the number of PRODID occurrences plus the number of VERSION occurrences. -/
theorem calendarStep_snd (props : List Property) :
    ∀ (c0 : Calendar) (n : Nat),
      (props.foldl calendarStep (c0, n)).2 =
        n + countProp "PRODID" props + countProp "VERSION" props := by
  induction props with
  | nil => intro c0 n; simp [countProp]
  | cons p ps ih =>
    intro c0 n
    simp only [List.foldl, countProp]
    by_cases h1 : p.Name = "PRODID"
    · simp [calendarStep, h1, ih]; try omega
    · by_cases h2 : p.Name = "VERSION"
      · simp [calendarStep, h1, h2, ih]; try omega
      · by_cases h3 : p.Name = "CALSCALE"
        · simp [calendarStep, h1, h2, h3, ih]
        · by_cases h4 : p.Name = "METHOD"
          · simp [calendarStep, h1, h2, h3, h4, ih]
          · simp [calendarStep, h1, h2, h3, h4, ih]

/-- C1 (amended): calendar validation succeeds exactly when the number of
PRODID properties plus the number of VERSION properties equals two — the
code counts the two names together, so e.g. two PRODID and no VERSION also
passes, and a duplicate fails only when it pushes the combined count past
two. -/
theorem C1_amended (c : Calendar) :
    isOkE (validateCalendar c) = true ↔
      countProp "PRODID" c.Properties + countProp "VERSION" c.Properties = 2 := by
  have h := calendarStep_snd c.Properties c 0
  simp only [validateCalendar]
  by_cases h2 : (c.Properties.foldl calendarStep (c, 0)).2 = 2
  · simp [h2, isOkE]; omega
  · simp [h2, isOkE]; omega

/-- C2 (amended): the Z-suffix rule applies only when no TZID parameter is
present — a TZID parameter takes precedence over the suffix.  Without TZID,
a value ending in `Z` is parsed with the UTC date-time layout, independent of
the system local zone (the `parseDate` of this revision takes no caller
location at all). -/
theorem C2_amended (localOff : Int) (prop : Property)
    (htz : paramsLookup prop.Params "TZID" = none)
    (hz : strHasSuffix prop.Value "Z" = true) :
    parseDate localOff prop = timeParse GoLayout.dateTimeLayoutUTC prop.Value := by
  unfold parseDate
  rw [htz]
  simp [hz]

/-- Witness for C2: the amended rule evaluated at the spec's own example
value, under a non-zero modelled local offset. -/
theorem C2_witness :
    parseDate 7 { Name := "DTSTART", Params := [], Value := "19980119T070000Z" } =
      Except.ok { sec := 885193200, loc := GoLoc.utc } := by
  rw [C2_amended 7 _ (by decide) (by decide)]
  decide

/-- C4 (amended): at name-position the scanner matches exactly the four
literal delimiter keywords `BEGIN:VCALENDAR`, `END:VCALENDAR`, `BEGIN:VEVENT`
and `END:VEVENT`, emitting the corresponding delimiter token and moving to
line-end scanning, for every continuation of the input; a line beginning
`BEGIN:VALARM` or `END:VALARM` matches no keyword and yields a generic name
token (`BEGIN` resp. `END`) followed by content-line scanning. -/
theorem C4_amended (rest : List Char) :
    lexName { input := beginVCalendar ++ rest, start := 0, pos := 0 } =
      LexStep.cont [{ typ := ItemType.itemBeginVCalendar, pos := 0, val := "BEGIN:VCALENDAR" }]
        { input := beginVCalendar ++ rest, start := 15, pos := 15 } LexState.newLine ∧
    lexName { input := endVCalendar ++ rest, start := 0, pos := 0 } =
      LexStep.cont [{ typ := ItemType.itemEndVCalendar, pos := 0, val := "END:VCALENDAR" }]
        { input := endVCalendar ++ rest, start := 13, pos := 13 } LexState.newLine ∧
    lexName { input := beginVEvent ++ rest, start := 0, pos := 0 } =
      LexStep.cont [{ typ := ItemType.itemBeginVEvent, pos := 0, val := "BEGIN:VEVENT" }]
        { input := beginVEvent ++ rest, start := 12, pos := 12 } LexState.newLine ∧
    lexName { input := endVEvent ++ rest, start := 0, pos := 0 } =
      LexStep.cont [{ typ := ItemType.itemEndVEvent, pos := 0, val := "END:VEVENT" }]
        { input := endVEvent ++ rest, start := 10, pos := 10 } LexState.newLine ∧
    lexName { input := "BEGIN:VALARM".data ++ rest, start := 0, pos := 0 } =
      LexStep.cont [{ typ := ItemType.itemName, pos := 0, val := "BEGIN" }]
        { input := "BEGIN:VALARM".data ++ rest, start := 5, pos := 5 } LexState.contentLine ∧
    lexName { input := "END:VALARM".data ++ rest, start := 0, pos := 0 } =
      LexStep.cont [{ typ := ItemType.itemName, pos := 0, val := "END" }]
        { input := "END:VALARM".data ++ rest, start := 3, pos := 3 } LexState.contentLine := by
  refine ⟨?_, ?_, ?_, ?_, ?_, ?_⟩ <;> rfl

/-- C5 (amended): the two scope checks the parser does perform: an
`END:VEVENT` delimiter while the scope exceeds event scope is rejected, and
an `END:VCALENDAR` delimiter while the scope exceeds calendar scope is
rejected (`END:VALARM` has no such check — see the counterexample). -/
theorem C5_scope_checks (localOff : Int) (st : ParserSt) :
    (scopeEvent < st.scope →
      scanDelimiter localOff st (tok ItemType.itemEndVEvent "END:VEVENT") =
        DelimRes.err "found END:VEVENT, expeced END:VALARM") ∧
    (scopeCalendar < st.scope →
      scanDelimiter localOff st (tok ItemType.itemEndVCalendar "END:VCALENDAR") =
        DelimRes.err "found END:VCALENDAR, expeced END:VEVENT") := by
  constructor
  · intro h
    simp [scanDelimiter, tok, h]
  · intro h
    simp [scanDelimiter, tok, h]

/-- Witness for C5: both checks evaluated at alarm scope. -/
theorem C5_scope_checks_witness :
    scanDelimiter 0 { toks := [], scope := 2, c := NewCalendar, v := none, a := none }
        (tok ItemType.itemEndVEvent "END:VEVENT") =
      DelimRes.err "found END:VEVENT, expeced END:VALARM" ∧
    scanDelimiter 0 { toks := [], scope := 2, c := NewCalendar, v := none, a := none }
        (tok ItemType.itemEndVCalendar "END:VCALENDAR") =
      DelimRes.err "found END:VCALENDAR, expeced END:VEVENT" :=
  ⟨(C5_scope_checks 0 _).1 (by decide), (C5_scope_checks 0 _).2 (by decide)⟩

/-- A successful validateEvent step leaves the raw property list untouched
and increments requiredCount exactly on UID, DTSTAMP and DTSTART. -/
theorem eventStep_ok (localOff : Int) (v0 : Event) (n : Nat)
    (u : List (String × Nat)) (p : Property)
    (acc' : Event × Nat × List (String × Nat))
    (h : eventStep localOff (v0, n, u) p = Except.ok acc') :
    acc'.1.Properties = v0.Properties ∧
    acc'.2.1 = n + (if p.Name = "UID" then 1 else 0) +
      (if p.Name = "DTSTAMP" then 1 else 0) + (if p.Name = "DTSTART" then 1 else 0) := by
  simp only [eventStep] at h
  split_ifs at h <;> cases h <;> constructor <;> simp_all

/-- A successful validateEvent property loop leaves the raw property list
untouched and its requiredCount is the combined number of UID, DTSTAMP and
DTSTART occurrences. -/
theorem eventLoop_ok (localOff : Int) (props : List Property) :
    ∀ (v0 : Event) (n : Nat) (u : List (String × Nat))
      (acc : Event × Nat × List (String × Nat)),
      eventLoop localOff (v0, n, u) props = Except.ok acc →
      acc.1.Properties = v0.Properties ∧
      acc.2.1 = n + countProp "UID" props + countProp "DTSTAMP" props +
        countProp "DTSTART" props := by
  induction props with
  | nil =>
    intro v0 n u acc h
    simp only [eventLoop] at h
    cases h
    simp [countProp]
  | cons p ps ih =>
    intro v0 n u acc h
    simp only [eventLoop] at h
    cases hstep : eventStep localOff (v0, n, u) p with
    | error e => rw [hstep] at h; cases h
    | ok acc' =>
      rw [hstep] at h
      obtain ⟨v1, n1, u1⟩ := acc'
      obtain ⟨hP, hN⟩ := eventStep_ok localOff v0 n u p (v1, n1, u1) hstep
      obtain ⟨ihP, ihN⟩ := ih v1 n1 u1 acc h
      refine ⟨by rw [ihP]; exact hP, ?_⟩
      simp only [countProp] at *
      rw [ihN, hN]
      split_ifs <;> omega

/-- C6 (amended): an event property list with exactly one UID, exactly one
DTSTART and no DTSTAMP always fails event validation — `validateEvent` takes
no calendar and counts DTSTAMP unconditionally, so the enclosing calendar's
Method cannot lift the requirement. -/
theorem C6_amended (localOff : Int) (v : Event)
    (hu : countProp "UID" v.Properties = 1)
    (hd : countProp "DTSTAMP" v.Properties = 0)
    (hs : countProp "DTSTART" v.Properties = 1) :
    isOkE (validateEvent localOff v) = false := by
  simp only [validateEvent]
  cases hl : eventLoop localOff (v, 0, []) v.Properties with
  | error e => simp [isOkE]
  | ok acc =>
    obtain ⟨-, hN⟩ := eventLoop_ok localOff v.Properties v 0 [] acc hl
    rw [hu, hd, hs] at hN
    simp [hN, isOkE]

/-- Witness for C6: the amended rule evaluated at the concrete event. -/
theorem C6_witness : isOkE (validateEvent 0 c6event) = false :=
  C6_amended 0 c6event (by decide) (by decide) (by decide)

/-- C7: every event that passes validation without carrying a DTEND property
ends up with a typed EndDate equal to the typed StartDate plus exactly 24
hours (86400 absolute seconds, in the same location). -/
theorem C7_missing_dtend_defaults (localOff : Int) (v v' : Event)
    (hok : validateEvent localOff v = Except.ok v')
    (hno : hasProperty "DTEND" v.Properties = false) :
    v'.EndDate = v'.StartDate.add (24 * 3600) := by
  simp only [validateEvent] at hok
  cases hl : eventLoop localOff (v, 0, []) v.Properties with
  | error e => rw [hl] at hok; cases hok
  | ok acc =>
    rw [hl] at hok
    dsimp only at hok
    obtain ⟨hP, -⟩ := eventLoop_ok localOff v.Properties v 0 [] acc hl
    rw [hP, hno] at hok
    split at hok
    · cases hok
    · split at hok
      · cases hok
      · simp only [Bool.false_eq_true, not_false_eq_true, if_true] at hok
        cases hok
        rfl

/-- Witness for C7: the rule evaluated at a concrete DTEND-free event. -/
theorem C7_witness :
    validateEvent 0 c7event = Except.ok c7result ∧
    c7result.EndDate = c7result.StartDate.add (24 * 3600) :=
  ⟨by decide, C7_missing_dtend_defaults 0 c7event c7result (by decide) (by decide)⟩

/-- C8 (amended): inside event validation, DTSTART and DTEND raw values are
resolved through `parseDate` (the section 4.4 resolver), but DTSTAMP is
parsed only against the UTC date-time layout, with a failed parse leaving the
zero time (the DTEND branch requires the absence of DURATION). -/
theorem C8_amended (localOff : Int) (v : Event) (n : Nat)
    (u : List (String × Nat)) (p : Property) :
    (p.Name = "DTSTAMP" →
      eventStep localOff (v, n, u) p =
        Except.ok ({ v with
            Timestamp := orZero (timeParse GoLayout.dateTimeLayoutUTC p.Value) },
          n + 1, bumpCount u "DTSTAMP")) ∧
    (p.Name = "DTSTART" →
      eventStep localOff (v, n, u) p =
        Except.ok ({ v with StartDate := orZero (parseDate localOff p) },
          n + 1, bumpCount u "DTSTART")) ∧
    (p.Name = "DTEND" → hasProperty "DURATION" v.Properties = false →
      eventStep localOff (v, n, u) p =
        Except.ok ({ v with EndDate := orZero (parseDate localOff p) },
          n, bumpCount u "DTEND")) := by
  refine ⟨?_, ?_, ?_⟩
  · intro h; simp [eventStep, h]
  · intro h; simp [eventStep, h]
  · intro h hdur; simp [eventStep, h, hdur]

/-- Witness for C8: the DTSTAMP branch evaluated at the bare-date DTSTAMP —
the UTC-layout parse fails and the Timestamp becomes the zero time. -/
theorem C8_witness :
    eventStep 0 (NewEvent, 0, []) c8stamp =
      Except.ok ({ NewEvent with Timestamp := goZeroTime }, 1, [("DTSTAMP", 1)]) := by
  rw [(C8_amended 0 NewEvent 0 [] c8stamp).1 (by rfl)]
  decide

end Ical
